import Mathlib

/-!
Verification of the torchsr dataset-pairing logic (`src/datasets/div2k.py`).

The Python code builds super-resolution datasets by pairing files of a
high-resolution directory with files of low-resolution track directories.
We shallowly embed the pure content of that code:

* the file system is an association list from directory path to the list of
  file names `os.listdir` would return (in arbitrary order);
* `track_dirs` tables are association lists from `(track, split, scale)`
  keys to relative directory paths;
* Python exceptions become an explicit `DsError` sum, raised through
  `Except`; the exception messages are rendered by `DsError.message`;
* `os.path.join(root, rel)` is modelled for roots without a trailing
  separator and relative second components, the only shapes the code uses;
  `os.path.expanduser` is the identity in the model (roots are taken
  already expanded, it performs no directory I/O);
* Python `sorted` on strings is lexicographic by code point, embedded as
  `mergeSort` under `strLe`;
* the directories on which `os.listdir` is called, in order, are exposed
  by `listTracksTrace`, and the download step by `InitEvent.downloadAll`,
  so that statements about "no file I/O before the error" can be made.
-/

deriving instance DecidableEq for Except

namespace TorchSR

/-- The errors the dataset construction code can raise.  The first three are
the `ValueError`s of `get_dir`, `fileNotFound` is the `FileNotFoundError` of
`os.listdir` on a missing directory, `countMismatch` is the `ValueError` of
the sample-count check, `lengthMismatch` the `ValueError` of the constructor
argument check, and `indexError` the `IndexError` of `samples[0]` on an
empty sample list. -/
inductive DsError where
  | unknownTrack (track : String) (valid : List String)
  | unknownSplit (split : String)
  | unsupportedScale (track : String) (scale : Nat)
  | fileNotFound (dir : String)
  | countMismatch (track : String) (scale : Nat)
  | lengthMismatch
  | indexError
  deriving DecidableEq

/-- A `track_dirs` table: `(track, split, scale)` keys to relative paths. -/
abbrev TrackDirs := List ((String × String × Nat) × String)

/-- A file system: directory path to the raw (unsorted) `os.listdir` result.
A directory absent from the list does not exist. -/
abbrev FileSystem := List (String × List String)

/-- `os.path.join root rel` for a root without trailing separator and a
relative `rel`. -/
def joinPath (a b : String) : String := a ++ "/" ++ b

/-- `os.listdir`: the raw file listing of a directory, or
`FileNotFoundError`. -/
def listdir (fs : FileSystem) (dir : String) : Except DsError (List String) :=
  match fs.lookup dir with
  | some files => .ok files
  | none => .error (.fileNotFound dir)

/-- Code-point comparison of character lists: Python `<=` on strings. -/
def charListLe : List Char → List Char → Bool
  | [], _ => true
  | _ :: _, [] => false
  | a :: as, b :: bs =>
    if a < b then true else if b < a then false else charListLe as bs

/-- Python string `<=`: lexicographic by code point. -/
def strLe (a b : String) : Bool := charListLe a.data b.data

/-- Python `sorted` on a list of strings (ascending, lexicographic).
Strings comparing equal under `strLe` are identical, so every correct
ascending sort returns the same list; insertion sort is used because its
structural recursion evaluates inside the kernel. -/
def sortStrings (l : List String) : List String :=
  List.insertionSort (fun a b => strLe a b = true) l

/-- A single quote character, as Python `repr` uses around strings. -/
def pyQuote : String := "\x27"

/-- Python `repr` of one string (for the shapes occurring in messages). -/
def strQuote (s : String) : String := pyQuote ++ s ++ pyQuote

/-- Tail of the rendering of a Python list: `, 'y'` for each later item. -/
def pyListReprAux : List String → String
  | [] => ""
  | y :: ys => ", " ++ strQuote y ++ pyListReprAux ys

/-- Rendering of a Python list of strings, as `f"{list(...)}"` prints it. -/
def pyListRepr : List String → String
  | [] => "[]"
  | x :: xs => "[" ++ strQuote x ++ pyListReprAux xs ++ "]"

/-- Substring test: does `pat` occur contiguously in `s`? -/
def strContains (s pat : String) : Bool :=
  s.data.tails.any (fun t => pat.data.isPrefixOf t)

/-- The message of each raised error, as the Python f-strings render it. -/
def DsError.message : DsError → String
  | .unknownTrack t valid =>
      "Track " ++ t ++ " does not exist. Use one of " ++ pyListRepr valid
  | .unknownSplit sp => "Split " ++ sp ++ " is not valid"
  | .unsupportedScale t sc =>
      "Div2K track " ++ t ++ " does not include scale X" ++ toString sc
  | .fileNotFound dir => "FileNotFoundError: " ++ dir
  | .countMismatch t sc =>
      "Number of files for " ++ t ++ "X" ++ toString sc ++ " does not match HR"
  | .lengthMismatch => "The number of scales and of tracks must be the same"
  | .indexError => "IndexError: list index out of range"

/-- `FolderByDir.get_tracks`: the set of track names of the table (kept as a
duplicate-free list; Python materialises a `set`). -/
def get_tracks (td : TrackDirs) : List String :=
  (td.map (fun p => p.1.1)).dedup

/-- `FolderByDir.get_splits`: the set of split names of the table. -/
def get_splits (td : TrackDirs) : List String :=
  (td.map (fun p => p.1.2.1)).dedup

/-- `FolderByDir.has_split`. -/
def has_split (td : TrackDirs) (split : String) : Bool :=
  split ∈ get_splits td

/-- `FolderByDir.get_dir`: resolve the directory of a `(track, split, scale)`
key against the static table.  Pure table lookup and string concatenation:
the file system is not consulted (it is not even a parameter). -/
def get_dir (td : TrackDirs) (root track split : String) (scale : Nat) :
    Except DsError String :=
  match td.lookup (track, split, scale) with
  | some d => .ok (joinPath root d)
  | none =>
    if track ∉ get_tracks td then .error (.unknownTrack track (get_tracks td))
    else if split ∉ get_splits td then .error (.unknownSplit split)
    else .error (.unsupportedScale track scale)

/-- `FolderByDir.list_samples`: resolve the directory, list it, sort the
names and prepend the directory path. -/
def list_samples (td : TrackDirs) (root : String) (fs : FileSystem)
    (track split : String) (scale : Nat) : Except DsError (List String) :=
  match get_dir td root track split scale with
  | .error e => .error e
  | .ok dir =>
    match listdir fs dir with
    | .error e => .error e
    | .ok files => .ok ((sortStrings files).map (fun s => joinPath dir s))

/-- Does the table have a high-resolution entry for this split?  The
`('hr', self.split, 1) in self.track_dirs` test of `init_samples`. -/
def has_hr (td : TrackDirs) (split : String) : Bool :=
  (td.lookup ("hr", split, 1)).isSome

/-- The pairs iterated by the `init_samples` loop, in order: `('hr', 1)`
first when the split has a high-resolution entry, then the requested
`(track, scale)` pairs in request order (`zip` truncates like Python's). -/
def allTracksPairs (td : TrackDirs) (split : String) (tracks : List String)
    (scales : List Nat) : List (String × Nat) :=
  if has_hr td split then ("hr", 1) :: tracks.zip scales
  else tracks.zip scales

/-- The `for track, scale in all_tracks: samples.append(...)` loop:
per-pair sorted path lists, stopping at the first raised error. -/
def listTracks (td : TrackDirs) (root : String) (fs : FileSystem)
    (split : String) : List (String × Nat) → Except DsError (List (List String))
  | [] => .ok []
  | p :: rest =>
    match list_samples td root fs p.1 split p.2 with
    | .error e => .error e
    | .ok l =>
      match listTracks td root fs split rest with
      | .error e => .error e
      | .ok ls => .ok (l :: ls)

/-- The directories on which the loop calls `os.listdir`, in order.  A pair
whose `get_dir` raises contributes nothing and ends the trace; a directory
on which `os.listdir` itself raises is still recorded (the call happened). -/
def listTracksTrace (td : TrackDirs) (root : String) (fs : FileSystem)
    (split : String) : List (String × Nat) → List String
  | [] => []
  | p :: rest =>
    match get_dir td root p.1 split p.2 with
    | .error _ => []
    | .ok dir =>
      match listdir fs dir with
      | .error _ => [dir]
      | .ok _ => dir :: listTracksTrace td root fs split rest

/-- The `for i, s in enumerate(samples[1:])` count check: the first list of
`rest` whose length differs from `ref` raises, naming `self.tracks[i]` and
`self.scales[i]` (exactly as the code indexes them). -/
def findMismatch (tracks : List String) (scales : List Nat) (ref : Nat) :
    List (List String) → Nat → Option DsError
  | [], _ => none
  | s :: rest, i =>
    if s.length ≠ ref then
      some (.countMismatch (tracks.getD i "") (scales.getD i 0))
    else findMismatch tracks scales ref rest (i + 1)

/-- `FolderByDir.init_samples`: list every pair's directory, check the
counts against the first listing, and transpose into per-index tuples.
`samples[0]` on an empty pair list raises `IndexError` as in Python. -/
def init_samples (td : TrackDirs) (root : String) (fs : FileSystem)
    (split : String) (tracks : List String) (scales : List Nat) :
    Except DsError (List (List String)) :=
  match listTracks td root fs split (allTracksPairs td split tracks scales) with
  | .error e => .error e
  | .ok [] => .error .indexError
  | .ok (s0 :: rest) =>
    match findMismatch tracks scales s0.length rest 0 with
    | some e => .error e
    | none =>
      .ok ((List.range s0.length).map (fun i => (s0 :: rest).map (fun s => s.getD i "")))

/-- `init_samples` as a mutation of the `self.samples` field: all raises
happen before the `self.samples = []` assignment of line 104, so on error
the field keeps its prior value. -/
def init_samples_mut (prior : List (List String)) (td : TrackDirs)
    (root : String) (fs : FileSystem) (split : String) (tracks : List String)
    (scales : List Nat) : Except DsError Unit × List (List String) :=
  match init_samples td root fs split tracks scales with
  | .error e => (.error e, prior)
  | .ok ss => (.ok (), ss)

/-- Scale normalisation of `FolderByDir.__init__`: a bare integer is
wrapped into a one-element list. -/
def normalize_scale : Nat ⊕ List Nat → List Nat
  | .inl s => [s]
  | .inr l => l

/-- Track normalisation of `FolderByDir.__init__`: a bare string is
replicated once per requested scale. -/
def normalize_track (scales : List Nat) : String ⊕ List String → List String
  | .inl t => List.replicate scales.length t
  | .inr l => l

/-- Observable side effects of construction: the single eager download pass
and each `os.listdir` call. -/
inductive InitEvent where
  | downloadAll
  | listDir (dir : String)
  deriving DecidableEq

/-- `FolderByDir.__init__`: normalise the arguments, raise when the track
and scale lists disagree in length, optionally download, then build the
samples.  Returns the construction result together with the ordered trace
of its side effects. -/
def folderByDirInit (td : TrackDirs) (root : String) (fs : FileSystem)
    (scaleArg : Nat ⊕ List Nat) (trackArg : String ⊕ List String)
    (split : String) (download : Bool) :
    Except DsError (List (List String)) × List InitEvent :=
  let scales := normalize_scale scaleArg
  let tracks := normalize_track scales trackArg
  if tracks.length ≠ scales.length then (.error .lengthMismatch, [])
  else
    (init_samples td root fs split tracks scales,
      (if download then [InitEvent.downloadAll] else []) ++
        (listTracksTrace td root fs split
          (allTracksPairs td split tracks scales)).map InitEvent.listDir)

/-- `Folder.__getitem__` with loader `loader` and no transform: the loaded
image of every path of the indexed sample tuple.  (Callers use indices
below `__len__`; Python would raise `IndexError` beyond.) -/
def getitem {α : Type} (loader : String → α) (samples : List (List String))
    (index : Nat) : List α :=
  (samples.getD index []).map loader

/-- Is a `(track, scale)` pair supported for the split, i.e. does the table
hold an entry for it?  `get_dir` succeeds exactly on supported pairs. -/
def supported (td : TrackDirs) (split : String) (p : String × Nat) : Bool :=
  (td.lookup (p.1, split, p.2)).isSome

/-- The relation between a `(track, scale)` pair and the path list built for
it: the pair's directory resolves, its raw listing is retrieved, the file
names are sorted lexicographically and prefixed with the directory path. -/
def sampleList (td : TrackDirs) (root : String) (fs : FileSystem)
    (split : String) (p : String × Nat) (fl : List String) : Prop :=
  ∃ dir raw, get_dir td root p.1 split p.2 = .ok dir ∧ listdir fs dir = .ok raw ∧
    fl = (sortStrings raw).map (fun s => joinPath dir s) ∧
    (sortStrings raw).Pairwise (fun a b => strLe a b = true)

namespace Div2K

/-- The static `Div2K.track_dirs` table, transcribed entry for entry
(`real_wild` is commented out in the source and hence absent). -/
def track_dirs : TrackDirs :=
  [ (("hr", "train", 1), "DIV2K_train_HR")
  , (("bicubic", "train", 2), joinPath "DIV2K_train_LR_bicubic" "X2")
  , (("bicubic", "train", 3), joinPath "DIV2K_train_LR_bicubic" "X3")
  , (("bicubic", "train", 4), joinPath "DIV2K_train_LR_bicubic" "X4")
  , (("bicubic", "train", 8), "DIV2K_train_LR_X8")
  , (("unknown", "train", 2), joinPath "DIV2K_train_LR_unknown" "X2")
  , (("unknown", "train", 3), joinPath "DIV2K_train_LR_unknown" "X3")
  , (("unknown", "train", 4), joinPath "DIV2K_train_LR_unknown" "X4")
  , (("real_mild", "train", 4), "DIV2K_train_LR_mild")
  , (("real_difficult", "train", 4), "DIV2K_train_LR_difficult")
  , (("hr", "val", 1), "DIV2K_valid_HR")
  , (("bicubic", "val", 2), joinPath "DIV2K_valid_LR_bicubic" "X2")
  , (("bicubic", "val", 3), joinPath "DIV2K_valid_LR_bicubic" "X3")
  , (("bicubic", "val", 4), joinPath "DIV2K_valid_LR_bicubic" "X4")
  , (("bicubic", "val", 8), "DIV2K_valid_LR_X8")
  , (("unknown", "val", 2), joinPath "DIV2K_valid_LR_unknown" "X2")
  , (("unknown", "val", 3), joinPath "DIV2K_valid_LR_unknown" "X3")
  , (("unknown", "val", 4), joinPath "DIV2K_valid_LR_unknown" "X4")
  , (("real_mild", "val", 4), "DIV2K_valid_LR_mild")
  , (("real_difficult", "val", 4), "DIV2K_valid_LR_difficult")
  , (("bicubic", "test", 2), joinPath "DIV2K_test_LR_bicubic" "X2")
  , (("bicubic", "test", 3), joinPath "DIV2K_test_LR_bicubic" "X3")
  , (("bicubic", "test", 4), joinPath "DIV2K_test_LR_bicubic" "X4")
  , (("unknown", "test", 2), joinPath "DIV2K_test_LR_unknown" "X2")
  , (("unknown", "test", 3), joinPath "DIV2K_test_LR_unknown" "X3")
  , (("unknown", "test", 4), joinPath "DIV2K_test_LR_unknown" "X4")
  ]

end Div2K

/-- A minimal `track_dirs` table of a dataset with a train HR directory and
one bicubic X2 track (the shape of the spec example). -/
def exTrackDirs : TrackDirs :=
  [ (("hr", "train", 1), "HR")
  , (("bicubic", "train", 2), joinPath "LR_bicubic" "X2")
  ]

/-- Example file system: three correspondingly named files in `HR/` and in
`LR_bicubic/X2/`, returned by `os.listdir` out of order. -/
def exFS : FileSystem :=
  [ ("/data/HR", ["bird.png", "baby.png", "butterfly.png"])
  , ("/data/LR_bicubic/X2", ["bird.png", "baby.png", "butterfly.png"])
  ]

/-- Example file system with a count mismatch: `LR_bicubic/X2/` has 2 files
while `HR/` has 3. -/
def exFSMismatch : FileSystem :=
  [ ("/data/HR", ["bird.png", "baby.png", "butterfly.png"])
  , ("/data/LR_bicubic/X2", ["bird.png", "baby.png"])
  ]

/-- Example file system for the Div2K table with the train HR and bicubic X2
directories present. -/
def exFSDiv2K : FileSystem :=
  [ (joinPath "/r" "DIV2K_train_HR", ["a.png", "b.png"])
  , (joinPath "/r" (joinPath "DIV2K_train_LR_bicubic" "X2"), ["a.png", "b.png"])
  ]

/-- The sample tuples the example tree produces: one tuple per file name in
sorted order, HR path first, then the bicubic X2 path. -/
def exSamples : List (List String) :=
  [ ["/data/HR/baby.png", "/data/LR_bicubic/X2/baby.png"]
  , ["/data/HR/bird.png", "/data/LR_bicubic/X2/bird.png"]
  , ["/data/HR/butterfly.png", "/data/LR_bicubic/X2/butterfly.png"] ]

/-- The sorted HR path list of the example tree. -/
def exSamplesHR : List String :=
  ["/data/HR/baby.png", "/data/HR/bird.png", "/data/HR/butterfly.png"]

/-- The sorted (short) X2 path list of the mismatching example tree. -/
def exSamplesX2Short : List String :=
  ["/data/LR_bicubic/X2/baby.png", "/data/LR_bicubic/X2/bird.png"]

/-! Order properties of the embedded string comparison. -/

theorem charListLe_total (as : List Char) :
    ∀ bs, charListLe as bs = true ∨ charListLe bs as = true := by
  induction as with
  | nil => intro bs; left; rfl
  | cons a as ih =>
    intro bs
    cases bs with
    | nil => right; rfl
    | cons b bs =>
      by_cases h1 : a < b
      · left; simp [charListLe, h1]
      · by_cases h2 : b < a
        · right; simp [charListLe, h1, h2]
        · rcases ih bs with h | h
          · left; simp [charListLe, h1, h2, h]
          · right; simp [charListLe, h1, h2, h]

theorem charListLe_trans (as : List Char) :
    ∀ bs cs, charListLe as bs = true → charListLe bs cs = true →
      charListLe as cs = true := by
  induction as with
  | nil => intro bs cs _ _; rfl
  | cons a as ih =>
    intro bs cs h1 h2
    cases bs with
    | nil => simp [charListLe] at h1
    | cons b bs =>
      cases cs with
      | nil => simp [charListLe] at h2
      | cons c cs =>
        simp only [charListLe] at h1 h2 ⊢
        by_cases hab : a < b
        · by_cases hbc : b < c
          · simp [lt_trans hab hbc]
          · by_cases hcb : c < b
            · simp [hbc, hcb] at h2
            · have hbc2 : b = c := le_antisymm (not_lt.mp hcb) (not_lt.mp hbc)
              subst hbc2
              simp [hab]
        · by_cases hba : b < a
          · simp [hab, hba] at h1
          · have hab2 : a = b := le_antisymm (not_lt.mp hba) (not_lt.mp hab)
            subst hab2
            simp only [hab, if_neg, if_false, lt_irrefl] at h1 ⊢
            by_cases hac : a < c
            · simp [hac]
            · by_cases hca : c < a
              · simp [hac, hca] at h2
              · simp only [hac, hca, if_false]
                exact ih bs cs h1 (by simpa [hac, hca] using h2)

theorem strLe_total (a b : String) : strLe a b = true ∨ strLe b a = true :=
  charListLe_total a.data b.data

theorem strLe_trans (a b c : String) (h1 : strLe a b = true)
    (h2 : strLe b c = true) : strLe a c = true :=
  charListLe_trans a.data b.data c.data h1 h2

instance : IsTotal String (fun a b => strLe a b = true) := ⟨strLe_total⟩

instance : IsTrans String (fun a b => strLe a b = true) := ⟨strLe_trans⟩

theorem sortStrings_pairwise (l : List String) :
    (sortStrings l).Pairwise (fun a b => strLe a b = true) :=
  List.sorted_insertionSort _ l

theorem length_sortStrings (l : List String) :
    (sortStrings l).length = l.length :=
  List.length_insertionSort _ l

/-! Substring facts about the rendered error messages. -/

theorem data_append (a b : String) : (a ++ b).data = a.data ++ b.data := rfl

theorem strContains_of_decomp (s pat : String) (a b : List Char)
    (h : s.data = a ++ pat.data ++ b) : strContains s pat = true := by
  unfold strContains
  rw [List.any_eq_true]
  refine ⟨pat.data ++ b, ?_, ?_⟩
  · rw [List.mem_tails, h, List.append_assoc]
    exact List.suffix_append a (pat.data ++ b)
  · rw [List.isPrefixOf_iff_prefix]
    exact List.prefix_append pat.data b

theorem pyListReprAux_decomp (t : String) :
    ∀ l : List String, t ∈ l →
      ∃ a b, (pyListReprAux l).data = a ++ t.data ++ b := by
  intro l
  induction l with
  | nil => intro h; cases h
  | cons y ys ih =>
    intro h
    rcases List.mem_cons.mp h with h1 | h2
    · subst h1
      refine ⟨(", " ++ pyQuote).data, (pyQuote ++ pyListReprAux ys).data, ?_⟩
      simp [pyListReprAux, strQuote, data_append, List.append_assoc]
    · obtain ⟨a, b, hab⟩ := ih h2
      refine ⟨(", " ++ strQuote y).data ++ a, b, ?_⟩
      simp [pyListReprAux, data_append, hab, List.append_assoc]

theorem pyListRepr_decomp (t : String) (l : List String) (h : t ∈ l) :
    ∃ a b, (pyListRepr l).data = a ++ t.data ++ b := by
  cases l with
  | nil => cases h
  | cons x xs =>
    rcases List.mem_cons.mp h with h1 | h2
    · subst h1
      refine ⟨("[" ++ pyQuote).data, (pyQuote ++ pyListReprAux xs ++ "]").data, ?_⟩
      simp [pyListRepr, strQuote, data_append, List.append_assoc]
    · obtain ⟨a, b, hab⟩ := pyListReprAux_decomp t xs h2
      refine ⟨("[" ++ strQuote x).data ++ a, b ++ ("]" : String).data, ?_⟩
      simp [pyListRepr, data_append, hab, List.append_assoc]

theorem unknownTrack_message_contains (track t : String) (valid : List String)
    (h : t ∈ valid) :
    strContains (DsError.message (.unknownTrack track valid)) t = true := by
  obtain ⟨a, b, hab⟩ := pyListRepr_decomp t valid h
  refine strContains_of_decomp _ _
    (("Track " ++ track ++ " does not exist. Use one of ").data ++ a) b ?_
  simp [DsError.message, data_append, hab, List.append_assoc]

/-! Inversion lemmas for the sample-building pipeline. -/

theorem list_samples_ok_inv {td : TrackDirs} {root : String} {fs : FileSystem}
    {track split : String} {scale : Nat} {l : List String}
    (h : list_samples td root fs track split scale = .ok l) :
    ∃ dir raw, get_dir td root track split scale = .ok dir ∧
      listdir fs dir = .ok raw ∧
      l = (sortStrings raw).map (fun s => joinPath dir s) := by
  unfold list_samples at h
  split at h
  · exact Except.noConfusion h
  · next dir hd =>
    split at h
    · exact Except.noConfusion h
    · next raw hl =>
      injection h with h
      exact ⟨dir, raw, hd, hl, h.symm⟩

theorem listTracks_ok_forall2 {td : TrackDirs} {root : String}
    {fs : FileSystem} {split : String} :
    ∀ {ps : List (String × Nat)} {ls : List (List String)},
      listTracks td root fs split ps = .ok ls →
      List.Forall₂ (fun p l => list_samples td root fs p.1 split p.2 = .ok l)
        ps ls := by
  intro ps
  induction ps with
  | nil =>
    intro ls h
    simp only [listTracks] at h
    injection h with h
    subst h
    exact .nil
  | cons p rest ih =>
    intro ls h
    simp only [listTracks] at h
    split at h
    · exact Except.noConfusion h
    · next l hs =>
      split at h
      · exact Except.noConfusion h
      · next ls2 hr =>
        injection h with h
        subst h
        exact .cons hs (ih hr)

theorem init_samples_ok_inv {td : TrackDirs} {root : String} {fs : FileSystem}
    {split : String} {tracks : List String} {scales : List Nat}
    {ss : List (List String)}
    (h : init_samples td root fs split tracks scales = .ok ss) :
    ∃ s0 rest,
      listTracks td root fs split (allTracksPairs td split tracks scales) =
        .ok (s0 :: rest) ∧
      findMismatch tracks scales s0.length rest 0 = none ∧
      ss = (List.range s0.length).map
        (fun i => (s0 :: rest).map (fun s => s.getD i "")) := by
  unfold init_samples at h
  split at h
  · exact Except.noConfusion h
  · exact Except.noConfusion h
  · next s0 rest hL =>
    split at h
    · exact Except.noConfusion h
    · next hF =>
      injection h with h
      exact ⟨s0, rest, hL, hF, h.symm⟩

theorem findMismatch_some_of_exists (tracks : List String) (scales : List Nat)
    {ref : Nat} :
    ∀ {rest : List (List String)} (i : Nat), (∃ s ∈ rest, s.length ≠ ref) →
      ∃ t sc, findMismatch tracks scales ref rest i =
        some (.countMismatch t sc) := by
  intro rest
  induction rest with
  | nil => intro i h; obtain ⟨s, hs, _⟩ := h; cases hs
  | cons s rest ih =>
    intro i h
    by_cases hl : s.length ≠ ref
    · exact ⟨tracks.getD i "", scales.getD i 0, by simp [findMismatch, hl]⟩
    · obtain ⟨s2, hs2, hlen2⟩ := h
      rcases List.mem_cons.mp hs2 with h1 | h2
      · subst h1; exact absurd hlen2 hl
      · obtain ⟨t, sc, hfm⟩ := ih (i + 1) ⟨s2, h2, hlen2⟩
        exact ⟨t, sc, by simp [findMismatch, hl, hfm]⟩

theorem get_dir_ok_of_supported (root : String) {td : TrackDirs}
    {split : String} {p : String × Nat} (h : supported td split p = true) :
    ∃ dir, get_dir td root p.1 split p.2 = .ok dir := by
  unfold supported at h
  unfold get_dir
  cases hl : td.lookup (p.1, split, p.2) with
  | some d => exact ⟨joinPath root d, rfl⟩
  | none => rw [hl] at h; exact Bool.noConfusion h

theorem get_dir_error_of_unsupported (root : String) {td : TrackDirs}
    {split : String} {p : String × Nat} (h : supported td split p = false) :
    ∃ e, get_dir td root p.1 split p.2 = .error e := by
  unfold supported at h
  unfold get_dir
  cases hl : td.lookup (p.1, split, p.2) with
  | some d => rw [hl] at h; exact Bool.noConfusion h
  | none =>
    by_cases h1 : p.1 ∈ get_tracks td
    · by_cases h2 : split ∈ get_splits td
      · exact ⟨.unsupportedScale p.1 p.2, by simp [h1, h2]⟩
      · exact ⟨.unknownSplit split, by simp [h1, h2]⟩
    · exact ⟨.unknownTrack p.1 (get_tracks td), by simp [h1]⟩

theorem listTracks_stops_at_unsupported (td : TrackDirs) (root : String)
    (fs : FileSystem) (split : String) :
    ∀ (ps : List (String × Nat)) (i : Nat), i < ps.length →
      supported td split (ps.getD i ("", 0)) = false →
      (∀ j, j < i → supported td split (ps.getD j ("", 0)) = true) →
      (∃ e, listTracks td root fs split ps = .error e) ∧
      (listTracksTrace td root fs split ps).length ≤ i := by
  intro ps
  induction ps with
  | nil => intro i h1 _ _; exact absurd h1 (by simp)
  | cons p rest ih =>
    intro i h1 h2 h3
    cases i with
    | zero =>
      simp only [List.getD_cons_zero] at h2
      obtain ⟨e, he⟩ := get_dir_error_of_unsupported root h2
      constructor
      · exact ⟨e, by simp [listTracks, list_samples, he]⟩
      · simp [listTracksTrace, he]
    | succ i =>
      have hp : supported td split p = true := by
        have := h3 0 (Nat.succ_pos i)
        simpa using this
      obtain ⟨dir, hdir⟩ := get_dir_ok_of_supported root hp
      cases hld : listdir fs dir with
      | error e =>
        constructor
        · exact ⟨e, by simp [listTracks, list_samples, hdir, hld]⟩
        · simp only [listTracksTrace, hdir, hld]
          exact Nat.succ_le_succ (Nat.zero_le i)
      | ok raw =>
        have h1r : i < rest.length := by simpa using h1
        have h2r : supported td split (rest.getD i ("", 0)) = false := by
          simpa using h2
        have h3r : ∀ j, j < i → supported td split (rest.getD j ("", 0)) = true := by
          intro j hj
          have := h3 (j + 1) (Nat.succ_lt_succ hj)
          simpa using this
        obtain ⟨⟨e, he⟩, htr⟩ := ih i h1r h2r h3r
        constructor
        · exact ⟨e, by simp [listTracks, list_samples, hdir, hld, he]⟩
        · simp only [listTracksTrace, hdir, hld, List.length_cons]
          exact Nat.succ_le_succ htr

theorem getD_range_map {α : Type} (n j : Nat) (f : Nat → α) (d : α)
    (h : j < n) : ((List.range n).map f).getD j d = f j := by
  rw [List.getD_eq_getElem?_getD]
  simp [List.getElem?_map, List.getElem?_range h]

/-! Claim theorems. -/

/-- Claim C1: after a successful construction, the number of samples equals
the file count of the high-resolution directory when the `('hr', split, 1)`
entry exists in `track_dirs`, and otherwise the file count of the directory
of the first requested `(track, scale)` pair. -/
theorem claim1_sample_count (td : TrackDirs) (root : String) (fs : FileSystem)
    (split : String) (tracks : List String) (scales : List Nat)
    (ss : List (List String))
    (h : init_samples td root fs split tracks scales = .ok ss) :
    (has_hr td split = true →
      ∃ dir files, get_dir td root "hr" split 1 = .ok dir ∧
        listdir fs dir = .ok files ∧ ss.length = files.length) ∧
    (has_hr td split = false →
      ∃ t sc rest, tracks.zip scales = (t, sc) :: rest ∧
        ∃ dir files, get_dir td root t split sc = .ok dir ∧
          listdir fs dir = .ok files ∧ ss.length = files.length) := by
  obtain ⟨s0, rest, hL, hF, hss⟩ := init_samples_ok_inv h
  have hlen : ss.length = s0.length := by rw [hss]; simp
  constructor
  · intro hhr
    rw [show allTracksPairs td split tracks scales =
        ("hr", 1) :: tracks.zip scales from by simp [allTracksPairs, hhr]] at hL
    cases listTracks_ok_forall2 hL with
    | cons hhd htl =>
      obtain ⟨dir, raw, hgd, hld, hval⟩ := list_samples_ok_inv hhd
      refine ⟨dir, raw, hgd, hld, ?_⟩
      rw [hlen, hval]
      simp [length_sortStrings]
  · intro hhr
    rw [show allTracksPairs td split tracks scales = tracks.zip scales from by
      simp [allTracksPairs, hhr]] at hL
    cases hz : tracks.zip scales with
    | nil =>
      rw [hz] at hL
      simp only [listTracks] at hL
      exact absurd hL (by simp)
    | cons p ps =>
      obtain ⟨t, sc⟩ := p
      rw [hz] at hL
      cases listTracks_ok_forall2 hL with
      | cons hhd htl =>
        obtain ⟨dir, raw, hgd, hld, hval⟩ := list_samples_ok_inv hhd
        refine ⟨t, sc, ps, rfl, dir, raw, hgd, hld, ?_⟩
        rw [hlen, hval]
        simp [length_sortStrings]

/-- Witness for C1 at the three-file example tree. -/
theorem claim1_witness :
    ∃ dir files, get_dir exTrackDirs "/data" "hr" "train" 1 = .ok dir ∧
      listdir exFS dir = .ok files ∧ exSamples.length = files.length :=
  (claim1_sample_count exTrackDirs "/data" exFS "train" ["bicubic"] [2]
    exSamples (by decide)).1 (by decide)

/-- Claim C2: when every pair's directory lists successfully but some
listing's length differs from the reference (the first listing: HR when
present, else the first requested track), construction raises a
count-mismatch error. -/
theorem claim2_count_mismatch (td : TrackDirs) (root : String)
    (fs : FileSystem) (split : String) (tracks : List String)
    (scales : List Nat) (samples : List (List String))
    (h1 : listTracks td root fs split (allTracksPairs td split tracks scales) =
      .ok samples)
    (h2 : ∃ s ∈ samples, s.length ≠ (samples.headD []).length) :
    ∃ t sc, init_samples td root fs split tracks scales =
      .error (.countMismatch t sc) := by
  obtain ⟨s, hs, hlen⟩ := h2
  cases samples with
  | nil => cases hs
  | cons s0 rest =>
    simp only [List.headD_cons] at hlen
    have hs2 : s ∈ rest := by
      rcases List.mem_cons.mp hs with h | h
      · exact absurd (by rw [h]) hlen
      · exact h
    obtain ⟨t, sc, hFm⟩ :=
      findMismatch_some_of_exists tracks scales 0 ⟨s, hs2, hlen⟩
    refine ⟨t, sc, ?_⟩
    unfold init_samples
    rw [h1]
    simp [hFm]

/-- Witness for C2: the X2 directory has 2 files while HR has 3. -/
theorem claim2_witness :
    ∃ t sc, init_samples exTrackDirs "/data" exFSMismatch "train" ["bicubic"] [2] =
      .error (.countMismatch t sc) :=
  claim2_count_mismatch exTrackDirs "/data" exFSMismatch "train" ["bicubic"] [2]
    [exSamplesHR, exSamplesX2Short] (by decide)
    ⟨exSamplesX2Short, by decide, by decide⟩

/-- Claim C3, amended: when the pair at position `i` of the HR-first pair
order is the first unsupported one, construction raises an error, but the
directories of the up-to-`i` preceding supported pairs (the HR directory
included, when present) may already have been listed; no directory at or
after the unsupported pair is ever listed, since at most `i` `os.listdir`
calls happen. -/
theorem claim3_amended (td : TrackDirs) (root : String) (fs : FileSystem)
    (split : String) (tracks : List String) (scales : List Nat) (i : Nat)
    (h1 : i < (allTracksPairs td split tracks scales).length)
    (h2 : supported td split
      ((allTracksPairs td split tracks scales).getD i ("", 0)) = false)
    (h3 : ∀ j, j < i → supported td split
      ((allTracksPairs td split tracks scales).getD j ("", 0)) = true) :
    (∃ e, init_samples td root fs split tracks scales = .error e) ∧
    (listTracksTrace td root fs split
      (allTracksPairs td split tracks scales)).length ≤ i := by
  obtain ⟨⟨e, he⟩, htr⟩ := listTracks_stops_at_unsupported td root fs split
    (allTracksPairs td split tracks scales) i h1 h2 h3
  refine ⟨⟨e, ?_⟩, htr⟩
  unfold init_samples
  rw [he]

/-- Counterexample to C3 as stated: requesting `[('bicubic', 2),
('bicubic', 16)]` on the Div2K table raises (scale 16 is unsupported), yet
the directory of the requested pair `('bicubic', 2)` has already been
listed before the error. -/
theorem claim3_counterexample :
    (∃ e, init_samples Div2K.track_dirs "/r" exFSDiv2K "train"
      ["bicubic", "bicubic"] [2, 16] = .error e) ∧
    joinPath "/r" (joinPath "DIV2K_train_LR_bicubic" "X2") ∈
      listTracksTrace Div2K.track_dirs "/r" exFSDiv2K "train"
        (allTracksPairs Div2K.track_dirs "train" ["bicubic", "bicubic"] [2, 16]) :=
  ⟨⟨.unsupportedScale "bicubic" 16, by decide⟩, by decide⟩

/-- Witness for the amended C3 at the same concrete request: the first
unsupported pair sits at index 2 (after HR and the X2 pair). -/
theorem claim3_witness :
    (∃ e, init_samples Div2K.track_dirs "/r" exFSDiv2K "train"
      ["bicubic", "bicubic"] [2, 16] = .error e) ∧
    (listTracksTrace Div2K.track_dirs "/r" exFSDiv2K "train"
      (allTracksPairs Div2K.track_dirs "train" ["bicubic", "bicubic"]
        [2, 16])).length ≤ 2 :=
  claim3_amended Div2K.track_dirs "/r" exFSDiv2K "train"
    ["bicubic", "bicubic"] [2, 16] 2 (by decide) (by decide)
    (fun j hj => by interval_cases j <;> decide)

/-- Claim C4: after a successful construction the ordering is
deterministic: each pair of the fixed HR-first order contributes the
lexicographically sorted listing of its directory, and the sample tuple at
every index is composed of the per-pair entries at that index, in that
fixed order. -/
theorem claim4_deterministic_order (td : TrackDirs) (root : String)
    (fs : FileSystem) (split : String) (tracks : List String)
    (scales : List Nat) (ss : List (List String))
    (h : init_samples td root fs split tracks scales = .ok ss) :
    ∃ fls, List.Forall₂ (sampleList td root fs split)
        (allTracksPairs td split tracks scales) fls ∧
      ∀ j, j < ss.length → ss.getD j [] = fls.map (fun l => l.getD j "") := by
  obtain ⟨s0, rest, hL, hF, hss⟩ := init_samples_ok_inv h
  refine ⟨s0 :: rest, ?_, ?_⟩
  · refine (listTracks_ok_forall2 hL).imp ?_
    intro p l hpl
    obtain ⟨dir, raw, hgd, hld, hval⟩ := list_samples_ok_inv hpl
    exact ⟨dir, raw, hgd, hld, hval, sortStrings_pairwise raw⟩
  · intro j hj
    have hj2 : j < s0.length := by
      rw [hss] at hj
      simpa using hj
    rw [hss, getD_range_map _ _ _ _ hj2]

/-- Witness for C4 at the three-file example tree. -/
theorem claim4_witness :
    ∃ fls, List.Forall₂ (sampleList exTrackDirs "/data" exFS "train")
        (allTracksPairs exTrackDirs "train" ["bicubic"] [2]) fls ∧
      ∀ j, j < exSamples.length →
        exSamples.getD j [] = fls.map (fun l => l.getD j "") :=
  claim4_deterministic_order exTrackDirs "/data" exFS "train" ["bicubic"] [2]
    exSamples (by decide)

/-- Claim C5, amended: a failed lookup raises one of the three errors, each
with a descriptive message; the unknown-track message lists every valid
track, while the unknown-split and unsupported-scale messages only name the
offending parameter (they are exactly the rendered strings below and list
no alternatives).  `get_tracks` indeed collects exactly the table's track
names. -/
theorem claim5_amended (td : TrackDirs) (root track split : String)
    (scale : Nat) (h : td.lookup (track, split, scale) = none) :
    (∀ t, t ∈ get_tracks td ↔ ∃ kd ∈ td, kd.1.1 = t) ∧
    ∃ e, get_dir td root track split scale = .error e ∧
      (track ∉ get_tracks td →
        e = .unknownTrack track (get_tracks td) ∧
        ∀ t ∈ get_tracks td, strContains e.message t = true) ∧
      (track ∈ get_tracks td → split ∉ get_splits td →
        e = .unknownSplit split ∧
        e.message = "Split " ++ split ++ " is not valid") ∧
      (track ∈ get_tracks td → split ∈ get_splits td →
        e = .unsupportedScale track scale ∧
        e.message = "Div2K track " ++ track ++ " does not include scale X" ++
          toString scale) := by
  constructor
  · intro t
    simp [get_tracks, List.mem_dedup, List.mem_map]
  · by_cases h1 : track ∈ get_tracks td
    · by_cases h2 : split ∈ get_splits td
      · refine ⟨.unsupportedScale track scale, ?_, ?_, ?_, ?_⟩
        · unfold get_dir
          rw [h]
          simp [h1, h2]
        · intro hc
          exact absurd h1 hc
        · intro _ hc
          exact absurd h2 hc
        · intro _ _
          exact ⟨rfl, rfl⟩
      · refine ⟨.unknownSplit split, ?_, ?_, ?_, ?_⟩
        · unfold get_dir
          rw [h]
          simp [h1, h2]
        · intro hc
          exact absurd h1 hc
        · intro _ _
          exact ⟨rfl, rfl⟩
        · intro _ hc
          exact absurd hc h2
    · refine ⟨.unknownTrack track (get_tracks td), ?_, ?_, ?_, ?_⟩
      · unfold get_dir
        rw [h]
        simp [h1]
      · intro _
        exact ⟨rfl, fun t ht => unknownTrack_message_contains track t _ ht⟩
      · intro hc
        exact absurd hc h1
      · intro hc
        exact absurd hc h1

/-- Counterexample to C5 as stated: the unknown-split error message for
split `nope` on the Div2K table is exactly `Split nope is not valid`; it
does not list the valid alternatives — not even the valid split `train`
occurs in it. -/
theorem claim5_counterexample :
    get_dir Div2K.track_dirs "/r" "bicubic" "nope" 2 =
      .error (.unknownSplit "nope") ∧
    (DsError.unknownSplit "nope").message = "Split nope is not valid" ∧
    "train" ∈ get_splits Div2K.track_dirs ∧
    strContains (DsError.unknownSplit "nope").message "train" = false :=
  ⟨by decide, rfl, by decide, by decide⟩

/-- Witness for the amended C5 at a concrete failed lookup. -/
theorem claim5_witness :
    (∀ t, t ∈ get_tracks Div2K.track_dirs ↔
      ∃ kd ∈ Div2K.track_dirs, kd.1.1 = t) ∧
    ∃ e, get_dir Div2K.track_dirs "/r" "bicubic" "nope" 2 = .error e ∧
      ("bicubic" ∉ get_tracks Div2K.track_dirs →
        e = .unknownTrack "bicubic" (get_tracks Div2K.track_dirs) ∧
        ∀ t ∈ get_tracks Div2K.track_dirs, strContains e.message t = true) ∧
      ("bicubic" ∈ get_tracks Div2K.track_dirs →
        "nope" ∉ get_splits Div2K.track_dirs →
        e = .unknownSplit "nope" ∧
        e.message = "Split " ++ "nope" ++ " is not valid") ∧
      ("bicubic" ∈ get_tracks Div2K.track_dirs →
        "nope" ∈ get_splits Div2K.track_dirs →
        e = .unsupportedScale "bicubic" 2 ∧
        e.message = "Div2K track " ++ "bicubic" ++
          " does not include scale X" ++ toString 2) :=
  claim5_amended Div2K.track_dirs "/r" "bicubic" "nope" 2 (by decide)

/-- Claim C6: on the example tree (HR with 3 files, LR_bicubic/X2 with 3
correspondingly named files, listed out of order by the file system),
constructing for track `bicubic` at scale 2 yields 3 samples, and index 0
loads the lexicographically first file of each directory, HR first. -/
theorem claim6_example :
    init_samples exTrackDirs "/data" exFS "train" ["bicubic"] [2] =
      .ok exSamples ∧
    exSamples.length = 3 ∧
    ∀ {α : Type} (loader : String → α),
      getitem loader exSamples 0 =
        [loader "/data/HR/baby.png", loader "/data/LR_bicubic/X2/baby.png"] :=
  ⟨by decide, rfl, fun loader => rfl⟩

/-- Claim C7: `get_dir` on the Div2K table returns the root joined with the
table's relative directory for every present key and raises for every
absent key; being a function of the table, root and key only, it performs
no file-system access. -/
theorem claim7_get_dir_table (root track split : String) (scale : Nat) :
    (∀ d, Div2K.track_dirs.lookup (track, split, scale) = some d →
      get_dir Div2K.track_dirs root track split scale =
        .ok (joinPath root d)) ∧
    (Div2K.track_dirs.lookup (track, split, scale) = none →
      ∃ e, get_dir Div2K.track_dirs root track split scale = .error e) := by
  constructor
  · intro d hd
    unfold get_dir
    rw [hd]
  · intro hd
    by_cases h1 : track ∈ get_tracks Div2K.track_dirs
    · by_cases h2 : split ∈ get_splits Div2K.track_dirs
      · refine ⟨.unsupportedScale track scale, ?_⟩
        unfold get_dir
        rw [hd]
        simp [h1, h2]
      · refine ⟨.unknownSplit split, ?_⟩
        unfold get_dir
        rw [hd]
        simp [h1, h2]
    · refine ⟨.unknownTrack track (get_tracks Div2K.track_dirs), ?_⟩
      unfold get_dir
      rw [hd]
      simp [h1]

/-- Witness for C7: one present key resolves to the joined path, one absent
key raises. -/
theorem claim7_witness :
    get_dir Div2K.track_dirs "/r" "bicubic" "train" 2 =
      .ok (joinPath "/r" (joinPath "DIV2K_train_LR_bicubic" "X2")) ∧
    ∃ e, get_dir Div2K.track_dirs "/r" "bicubic" "train" 16 = .error e :=
  ⟨(claim7_get_dir_table "/r" "bicubic" "train" 2).1
      (joinPath "DIV2K_train_LR_bicubic" "X2") (by decide),
    (claim7_get_dir_table "/r" "bicubic" "train" 16).2 (by decide)⟩

/-- Claim C8: a bare scale is wrapped into a one-element list, a bare track
string is replicated once per scale, and when the resulting lists disagree
in length, construction raises the `ValueError` with an empty side-effect
trace: before any download and before any file-system access. -/
theorem claim8_arg_normalisation :
    (∀ s : Nat, normalize_scale (.inl s) = [s]) ∧
    (∀ (t : String) (scales : List Nat),
      normalize_track scales (.inl t) = List.replicate scales.length t) ∧
    (∀ (td : TrackDirs) (root : String) (fs : FileSystem)
      (scaleArg : Nat ⊕ List Nat) (trackArg : String ⊕ List String)
      (split : String) (dl : Bool),
      (normalize_track (normalize_scale scaleArg) trackArg).length ≠
        (normalize_scale scaleArg).length →
      folderByDirInit td root fs scaleArg trackArg split dl =
        (.error .lengthMismatch, [])) := by
  refine ⟨fun s => rfl, fun t scales => rfl, ?_⟩
  intro td root fs scaleArg trackArg split dl h
  simp [folderByDirInit, h]

/-- Witness for C8: a single scale with a two-track list raises before any
side effect even with the download flag set. -/
theorem claim8_witness :
    folderByDirInit [] "/r" [] (.inl 2) (.inr ["a", "b"]) "train" true =
      (.error .lengthMismatch, []) :=
  claim8_arg_normalisation.2.2 [] "/r" [] (.inl 2) (.inr ["a", "b"]) "train"
    true (by decide)

/-- Claim C9: after a successful construction every sample tuple has the
same length — the number of requested pairs plus one when the split has an
HR entry, the number of requested pairs otherwise — and `__getitem__`
returns that many images at every valid index. -/
theorem claim9_uniform_tuple_length (td : TrackDirs) (root : String)
    (fs : FileSystem) (scaleArg : Nat ⊕ List Nat)
    (trackArg : String ⊕ List String) (split : String) (dl : Bool)
    (ss : List (List String))
    (h : (folderByDirInit td root fs scaleArg trackArg split dl).1 = .ok ss) :
    (∀ row ∈ ss, row.length =
      if has_hr td split then
        (normalize_track (normalize_scale scaleArg) trackArg).length + 1
      else (normalize_track (normalize_scale scaleArg) trackArg).length) ∧
    (∀ {α : Type} (loader : String → α) (i : Nat), i < ss.length →
      (getitem loader ss i).length =
        if has_hr td split then
          (normalize_track (normalize_scale scaleArg) trackArg).length + 1
        else (normalize_track (normalize_scale scaleArg) trackArg).length) := by
  simp only [folderByDirInit] at h
  split at h
  · exact Except.noConfusion h
  · next hne =>
    have heq : (normalize_track (normalize_scale scaleArg) trackArg).length =
        (normalize_scale scaleArg).length := not_ne_iff.mp hne
    obtain ⟨s0, rest, hL, hF, hss⟩ := init_samples_ok_inv h
    have hpairs : (s0 :: rest).length =
        (allTracksPairs td split (normalize_track (normalize_scale scaleArg)
          trackArg) (normalize_scale scaleArg)).length :=
      (listTracks_ok_forall2 hL).length_eq.symm
    have hN : (allTracksPairs td split (normalize_track (normalize_scale
        scaleArg) trackArg) (normalize_scale scaleArg)).length =
        (if has_hr td split then
          (normalize_track (normalize_scale scaleArg) trackArg).length + 1
        else (normalize_track (normalize_scale scaleArg) trackArg).length) := by
      unfold allTracksPairs
      by_cases hh : has_hr td split
      · simp only [hh, if_true, List.length_cons, List.length_zip]
        omega
      · simp only [hh, if_false, List.length_zip, Bool.false_eq_true]
        omega
    have hrows : ∀ row ∈ ss, row.length =
        (if has_hr td split then
          (normalize_track (normalize_scale scaleArg) trackArg).length + 1
        else (normalize_track (normalize_scale scaleArg) trackArg).length) := by
      intro row hrow
      rw [hss] at hrow
      obtain ⟨i, _, hrec⟩ := List.mem_map.mp hrow
      rw [← hrec, List.length_map, hpairs, hN]
    refine ⟨hrows, ?_⟩
    intro α loader i hi
    have hmem : ss.getD i [] ∈ ss := by
      rw [List.getD_eq_getElem?_getD, List.getElem?_eq_getElem hi]
      exact List.getElem_mem hi
    calc (getitem loader ss i).length
        = (ss.getD i []).length := List.length_map _ _
      _ = _ := hrows _ hmem

/-- Witness for C9 at the three-file example tree. -/
theorem claim9_witness :
    (∀ row ∈ exSamples, row.length =
      if has_hr exTrackDirs "train" then
        (normalize_track (normalize_scale (.inl 2)) (.inl "bicubic")).length + 1
      else (normalize_track (normalize_scale (.inl 2)) (.inl "bicubic")).length) ∧
    (∀ {α : Type} (loader : String → α) (i : Nat), i < exSamples.length →
      (getitem loader exSamples i).length =
        if has_hr exTrackDirs "train" then
          (normalize_track (normalize_scale (.inl 2)) (.inl "bicubic")).length + 1
        else (normalize_track (normalize_scale (.inl 2))
          (.inl "bicubic")).length) :=
  claim9_uniform_tuple_length exTrackDirs "/data" exFS (.inl 2)
    (.inl "bicubic") "train" false exSamples (by decide)

/-- Claim C10: when `init_samples` raises a count-mismatch error, the
`samples` field keeps the empty list the base-class constructor set. -/
theorem claim10_samples_unchanged (td : TrackDirs) (root : String)
    (fs : FileSystem) (split : String) (tracks : List String)
    (scales : List Nat) (t : String) (sc : Nat)
    (h : init_samples td root fs split tracks scales =
      .error (.countMismatch t sc)) :
    init_samples_mut [] td root fs split tracks scales =
      (.error (.countMismatch t sc), []) := by
  unfold init_samples_mut
  rw [h]

/-- Witness for C10 at the mismatching example tree. -/
theorem claim10_witness :
    init_samples_mut [] exTrackDirs "/data" exFSMismatch "train" ["bicubic"] [2] =
      (.error (.countMismatch "bicubic" 2), []) :=
  claim10_samples_unchanged exTrackDirs "/data" exFSMismatch "train"
    ["bicubic"] [2] "bicubic" 2 (by decide)

end TorchSR
